import Mathlib

/-!
Verification of the visual-cryptography script `overlay.py`.

The script splits a black-and-white image into two shares: every original
pixel becomes a 2x2 glyph cell (a slash or a backslash) in each share, and
overlaying the shares (blackness dominates) reconstructs the image.

Modelling choices, all taken from the source:
* Pixel samples are modelled as rationals (`Pix`); every value the program
  writes is `0.0` or `1.0`, and comparisons in the source are exact
  equalities with `0`, which `ℚ` reproduces faithfully.
* A 2D numpy array is a total function `Mat` from indices to samples,
  together with its shape (`Grid`).  `np.empty` leaves the array contents
  unspecified, so `encode` and `overlay` take the initial contents of the
  arrays they allocate as explicit parameters (`init1`, `init2`, `init`);
  theorems quantify over them, showing the results never depend on the
  uninitialised memory.
* `randomSlash` draws one independent random bit per cell of the original;
  the whole sequence of outcomes is modelled as an explicit oracle
  `dir : Nat → Nat → Bool` giving the bit drawn at cell `(row, col)`
  (each cell is visited exactly once, in row-major order).
* Python indexing `arr[r, c]` raises `IndexError` when out of bounds;
  `readPix` models a read with that bound check.  The `or` in
  `overlay` short-circuits, so the second share is only indexed when the
  first share's pixel is nonzero; `overlayBody` reproduces this.
* Saving images (`mpimg.imsave`) and plotting are I/O collaborators outside
  the core algorithm and are not modelled.
-/

namespace VisualCrypto

/-- A pixel sample.  The program only ever writes `0.0` (black) and `1.0`
(white); inputs may carry any sample value. -/
abbrev Pix := ℚ

/-- The contents of a 2D array: a total function from (row, col) to sample. -/
abbrev Mat := Nat → Nat → Pix

/-- A 2D numpy array: its shape together with its contents.  Only indices
`r < height`, `c < width` are meaningful. -/
structure Grid where
  height : Nat
  width : Nat
  data : Mat

/-- `SLASH = True` from the source. -/
def SLASH : Bool := true

/-- `BACKSLASH = False` from the source. -/
def BACKSLASH : Bool := false

/-- Assignment `m[(r, c)] = v` to a single entry of a 2D array. -/
def setPix (m : Mat) (r c : Nat) (v : Pix) : Mat :=
  fun i j => if i = r ∧ j = c then v else m i j

/-- `drawSlash(topRow, leftCol, imageData)`: writes the slash glyph into the
2x2 cell whose top-left pixel is `(topRow*2, leftCol*2)`: topLeft = 1.0,
topRight = 0.0, bottomLeft = 0.0, bottomRight = 1.0, in source order. -/
def drawSlash (topRow leftCol : Nat) (imageData : Mat) : Mat :=
  setPix (setPix (setPix (setPix imageData
    (topRow * 2) (leftCol * 2) 1)
    (topRow * 2) (leftCol * 2 + 1) 0)
    (topRow * 2 + 1) (leftCol * 2) 0)
    (topRow * 2 + 1) (leftCol * 2 + 1) 1

/-- `drawBackslash(topRow, leftCol, imageData)`: writes the backslash glyph:
topLeft = 0.0, topRight = 1.0, bottomLeft = 1.0, bottomRight = 0.0. -/
def drawBackslash (topRow leftCol : Nat) (imageData : Mat) : Mat :=
  setPix (setPix (setPix (setPix imageData
    (topRow * 2) (leftCol * 2) 0)
    (topRow * 2) (leftCol * 2 + 1) 1)
    (topRow * 2 + 1) (leftCol * 2) 1)
    (topRow * 2 + 1) (leftCol * 2 + 1) 0

/-- The four sub-pixel samples a glyph consists of, as
(topLeft, topRight, bottomLeft, bottomRight); `true` is `SLASH`. -/
def glyphPat (d : Bool) : Pix × Pix × Pix × Pix :=
  if d = SLASH then (1, 0, 0, 1) else (0, 1, 1, 0)

/-- The 2x2 cell of a doubled array corresponding to original cell `(r, c)`:
the four pixels at offsets `(r*2 .. r*2+1, c*2 .. c*2+1)`, read as
(topLeft, topRight, bottomLeft, bottomRight). -/
def cellAt (m : Mat) (r c : Nat) : Pix × Pix × Pix × Pix :=
  (m (r * 2) (c * 2), m (r * 2) (c * 2 + 1),
   m (r * 2 + 1) (c * 2), m (r * 2 + 1) (c * 2 + 1))

/-- The glyph the second share receives, as a function of the original pixel
and the first share's direction: the opposite glyph when the pixel is black
(`== 0`), the same glyph otherwise. -/
def shareBDir (origVal : Pix) (d : Bool) : Bool :=
  if origVal = 0 then !d else d

/-- The body of the encode loop (source lines 83-99): one cell `(row, col)`
with random outcome `direction`, updating the pair
(firstData, secondData). -/
def encodeBody (originalData : Mat) (direction : Bool) (row col : Nat)
    (st : Mat × Mat) : Mat × Mat :=
  if direction = SLASH then
    (drawSlash row col st.1,
     if originalData row col = 0 then drawBackslash row col st.2
     else drawSlash row col st.2)
  else
    (drawBackslash row col st.1,
     if originalData row col = 0 then drawSlash row col st.2
     else drawBackslash row col st.2)

/-- One step of the encode fold, consuming the next cell index. -/
def encodeStep (originalData : Mat) (dir : Nat → Nat → Bool)
    (st : Mat × Mat) (rc : Nat × Nat) : Mat × Mat :=
  encodeBody originalData (dir rc.1 rc.2) rc.1 rc.2 st

/-- The row-major sequence of indices visited by
`for row in range(height): for col in range(width)`. -/
def cellIndices (height width : Nat) : List (Nat × Nat) :=
  (List.range height).flatMap (fun row => (List.range width).map (fun col => (row, col)))

/-- `encode(originalData)` (source lines 69-104): allocates two arrays of
double height and double width and fills every 2x2 cell with a glyph; the
first share gets the random direction, the second share the direction
dictated by the original pixel.  `dir` is the random oracle and
`init1`, `init2` the unspecified contents of the two `np.empty` arrays. -/
def encode (dir : Nat → Nat → Bool) (init1 init2 : Mat) (originalData : Grid) :
    Grid × Grid :=
  (⟨originalData.height * 2, originalData.width * 2,
    ((cellIndices originalData.height originalData.width).foldl
      (encodeStep originalData.data dir) (init1, init2)).1⟩,
   ⟨originalData.height * 2, originalData.width * 2,
    ((cellIndices originalData.height originalData.width).foldl
      (encodeStep originalData.data dir) (init1, init2)).2⟩)

/-- The one runtime error the overlay loop can raise: numpy's `IndexError`
on an out-of-range index. -/
inductive PyErr where
  | indexError
  deriving DecidableEq

/-- Reading `g[r, c]`: returns the sample when in bounds, raises
`IndexError` otherwise, as numpy indexing does. -/
def readPix (g : Grid) (r c : Nat) : Except PyErr Pix :=
  if r < g.height ∧ c < g.width then .ok (g.data r c) else .error .indexError

/-- The body of the overlay loop (source lines 120-123) at pixel
`(row, col)`: black if either input pixel is black, white otherwise.
Python's `or` short-circuits, so `secondData` is only indexed when
`firstData`'s pixel is nonzero. -/
def overlayBody (firstData secondData : Grid) (row col : Nat) (m : Mat) :
    Except PyErr Mat :=
  match readPix firstData row col with
  | .error e => .error e
  | .ok a =>
    if a = 0 then .ok (setPix m row col 0)
    else
      match readPix secondData row col with
      | .error e => .error e
      | .ok b =>
        if b = 0 then .ok (setPix m row col 0)
        else .ok (setPix m row col 1)

/-- One step of the overlay fold; a raised error aborts the loop. -/
def overlayStep (firstData secondData : Grid) (st : Except PyErr Mat)
    (rc : Nat × Nat) : Except PyErr Mat :=
  match st with
  | .error e => .error e
  | .ok m => overlayBody firstData secondData rc.1 rc.2 m

/-- `overlay(firstData, secondData)` (source lines 106-127): iterates over
`firstData`'s shape — the source performs no dimension check — and writes
the blackness-OR of the two inputs at every pixel.  `init` is the
unspecified contents of the `np.empty` output array. -/
def overlay (init : Mat) (firstData secondData : Grid) : Except PyErr Grid :=
  match (cellIndices firstData.height firstData.width).foldl
      (overlayStep firstData secondData) (.ok init) with
  | .error e => .error e
  | .ok m => .ok ⟨firstData.height, firstData.width, m⟩

/-- How many of the four sub-pixels of a cell are black. -/
def countBlack (p : Pix × Pix × Pix × Pix) : Nat :=
  (if p.1 = 0 then 1 else 0) + (if p.2.1 = 0 then 1 else 0) +
  (if p.2.2.1 = 0 then 1 else 0) + (if p.2.2.2 = 0 then 1 else 0)

/-- Whether a run of `overlay` completed without raising. -/
def exceptIsOk (e : Except PyErr Grid) : Bool :=
  match e with
  | .ok _ => true
  | .error _ => false

/-! ### Pointwise behaviour of the drawing primitives -/

lemma setPix_same (m : Mat) (r c : Nat) (v : Pix) : setPix m r c v r c = v := by
  simp [setPix]

lemma setPix_other (m : Mat) (r c : Nat) (v : Pix) (i j : Nat)
    (h : ¬ (i = r ∧ j = c)) : setPix m r c v i j = m i j := by
  simp [setPix, h]

lemma drawSlash_other (row col i j : Nat) (m : Mat)
    (h : ¬ (i / 2 = row ∧ j / 2 = col)) : drawSlash row col m i j = m i j := by
  unfold drawSlash
  rw [setPix_other _ _ _ _ _ _ (by omega), setPix_other _ _ _ _ _ _ (by omega),
    setPix_other _ _ _ _ _ _ (by omega), setPix_other _ _ _ _ _ _ (by omega)]

lemma drawBackslash_other (row col i j : Nat) (m : Mat)
    (h : ¬ (i / 2 = row ∧ j / 2 = col)) : drawBackslash row col m i j = m i j := by
  unfold drawBackslash
  rw [setPix_other _ _ _ _ _ _ (by omega), setPix_other _ _ _ _ _ _ (by omega),
    setPix_other _ _ _ _ _ _ (by omega), setPix_other _ _ _ _ _ _ (by omega)]

lemma drawSlash_tl (r c : Nat) (m : Mat) : drawSlash r c m (r * 2) (c * 2) = 1 := by
  unfold drawSlash
  rw [setPix_other _ _ _ _ _ _ (by omega), setPix_other _ _ _ _ _ _ (by omega),
    setPix_other _ _ _ _ _ _ (by omega), setPix_same]

lemma drawSlash_tr (r c : Nat) (m : Mat) : drawSlash r c m (r * 2) (c * 2 + 1) = 0 := by
  unfold drawSlash
  rw [setPix_other _ _ _ _ _ _ (by omega), setPix_other _ _ _ _ _ _ (by omega),
    setPix_same]

lemma drawSlash_bl (r c : Nat) (m : Mat) : drawSlash r c m (r * 2 + 1) (c * 2) = 0 := by
  unfold drawSlash
  rw [setPix_other _ _ _ _ _ _ (by omega), setPix_same]

lemma drawSlash_br (r c : Nat) (m : Mat) : drawSlash r c m (r * 2 + 1) (c * 2 + 1) = 1 := by
  unfold drawSlash
  rw [setPix_same]

lemma drawBackslash_tl (r c : Nat) (m : Mat) : drawBackslash r c m (r * 2) (c * 2) = 0 := by
  unfold drawBackslash
  rw [setPix_other _ _ _ _ _ _ (by omega), setPix_other _ _ _ _ _ _ (by omega),
    setPix_other _ _ _ _ _ _ (by omega), setPix_same]

lemma drawBackslash_tr (r c : Nat) (m : Mat) : drawBackslash r c m (r * 2) (c * 2 + 1) = 1 := by
  unfold drawBackslash
  rw [setPix_other _ _ _ _ _ _ (by omega), setPix_other _ _ _ _ _ _ (by omega),
    setPix_same]

lemma drawBackslash_bl (r c : Nat) (m : Mat) : drawBackslash r c m (r * 2 + 1) (c * 2) = 1 := by
  unfold drawBackslash
  rw [setPix_other _ _ _ _ _ _ (by omega), setPix_same]

lemma drawBackslash_br (r c : Nat) (m : Mat) :
    drawBackslash r c m (r * 2 + 1) (c * 2 + 1) = 0 := by
  unfold drawBackslash
  rw [setPix_same]

lemma cellAt_drawSlash (r c : Nat) (m : Mat) :
    cellAt (drawSlash r c m) r c = (1, 0, 0, 1) := by
  simp [cellAt, drawSlash_tl, drawSlash_tr, drawSlash_bl, drawSlash_br]

lemma cellAt_drawBackslash (r c : Nat) (m : Mat) :
    cellAt (drawBackslash r c m) r c = (0, 1, 1, 0) := by
  simp [cellAt, drawBackslash_tl, drawBackslash_tr, drawBackslash_bl, drawBackslash_br]

lemma cellAt_drawSlash_other (row col r c : Nat) (m : Mat)
    (h : ¬ (r = row ∧ c = col)) : cellAt (drawSlash row col m) r c = cellAt m r c := by
  unfold cellAt
  rw [drawSlash_other _ _ _ _ _ (by omega), drawSlash_other _ _ _ _ _ (by omega),
    drawSlash_other _ _ _ _ _ (by omega), drawSlash_other _ _ _ _ _ (by omega)]

lemma cellAt_drawBackslash_other (row col r c : Nat) (m : Mat)
    (h : ¬ (r = row ∧ c = col)) : cellAt (drawBackslash row col m) r c = cellAt m r c := by
  unfold cellAt
  rw [drawBackslash_other _ _ _ _ _ (by omega), drawBackslash_other _ _ _ _ _ (by omega),
    drawBackslash_other _ _ _ _ _ (by omega), drawBackslash_other _ _ _ _ _ (by omega)]

/-! ### The encode loop, cell by cell -/

lemma cellAt_encodeBody (o : Mat) (d : Bool) (r c : Nat) (st : Mat × Mat) :
    cellAt (encodeBody o d r c st).1 r c = glyphPat d ∧
    cellAt (encodeBody o d r c st).2 r c = glyphPat (shareBDir (o r c) d) := by
  by_cases ho : o r c = 0 <;> cases d <;>
    simp [encodeBody, shareBDir, glyphPat, SLASH, ho,
      cellAt_drawSlash, cellAt_drawBackslash]

lemma cellAt_encodeBody_other (o : Mat) (d : Bool) (row col r c : Nat)
    (st : Mat × Mat) (h : ¬ (r = row ∧ c = col)) :
    cellAt (encodeBody o d row col st).1 r c = cellAt st.1 r c ∧
    cellAt (encodeBody o d row col st).2 r c = cellAt st.2 r c := by
    by_cases ho : o row col = 0 <;> cases d <;>
      simp [encodeBody, SLASH, ho, cellAt_drawSlash_other _ _ _ _ _ h,
        cellAt_drawBackslash_other _ _ _ _ _ h]

lemma encode_foldl_cellAt (o : Mat) (dir : Nat → Nat → Bool)
    (l : List (Nat × Nat)) (st : Mat × Mat) (r c : Nat) :
    cellAt (l.foldl (encodeStep o dir) st).1 r c
      = (if (r, c) ∈ l then glyphPat (dir r c) else cellAt st.1 r c) ∧
    cellAt (l.foldl (encodeStep o dir) st).2 r c
      = (if (r, c) ∈ l then glyphPat (shareBDir (o r c) (dir r c))
         else cellAt st.2 r c) := by
  induction l generalizing st with
  | nil => simp
  | cons p t ih =>
    obtain ⟨ih1, ih2⟩ := ih (encodeStep o dir st p)
    rw [List.foldl_cons]
    by_cases hp : (r, c) = p
    · subst hp
      by_cases hm : (r, c) ∈ t
      · simp [ih1, ih2, hm]
      · obtain ⟨e1, e2⟩ := cellAt_encodeBody o (dir r c) r c st
        simp only [encodeStep] at ih1 ih2 ⊢
        simp [ih1, ih2, hm, e1, e2]
    · have hne : ¬ (r = p.1 ∧ c = p.2) := by
        intro hcon
        exact hp (by cases p; simp_all)
      obtain ⟨e1, e2⟩ := cellAt_encodeBody_other o (dir p.1 p.2) p.1 p.2 r c st hne
      simp only [encodeStep] at ih1 ih2 e1 e2 ⊢
      simp [ih1, ih2, e1, e2, List.mem_cons, hp]

lemma mem_cellIndices (height width r c : Nat) :
    (r, c) ∈ cellIndices height width ↔ r < height ∧ c < width := by
  simp [cellIndices]

/-! ### The overlay loop -/

lemma overlayBody_ok (a b : Grid) (r c : Nat) (m : Mat)
    (hra : r < a.height) (hca : c < a.width)
    (hrb : r < b.height) (hcb : c < b.width) :
    overlayBody a b r c m
      = .ok (setPix m r c (if a.data r c = 0 ∨ b.data r c = 0 then 0 else 1)) := by
  unfold overlayBody readPix
  rw [if_pos ⟨hra, hca⟩]
  by_cases ha : a.data r c = 0
  · simp [ha]
  · rw [if_pos ⟨hrb, hcb⟩]
    by_cases hb : b.data r c = 0 <;> simp [ha, hb]

lemma overlay_foldl_ok (a b : Grid) (l : List (Nat × Nat)) (m : Mat)
    (hl : ∀ p ∈ l, p.1 < a.height ∧ p.2 < a.width ∧ p.1 < b.height ∧ p.2 < b.width) :
    ∃ m2, l.foldl (overlayStep a b) (.ok m) = .ok m2 ∧
      ∀ r c, m2 r c =
        if (r, c) ∈ l then (if a.data r c = 0 ∨ b.data r c = 0 then 0 else 1)
        else m r c := by
  induction l generalizing m with
  | nil => exact ⟨m, rfl, by simp⟩
  | cons p t ih =>
    obtain ⟨h1, h2, h3, h4⟩ := hl p (List.mem_cons_self p t)
    obtain ⟨m2, hfold, hchar⟩ :=
      ih (setPix m p.1 p.2 (if a.data p.1 p.2 = 0 ∨ b.data p.1 p.2 = 0 then 0 else 1))
        (fun q hq => hl q (List.mem_cons_of_mem p hq))
    refine ⟨m2, ?_, ?_⟩
    · rw [List.foldl_cons]
      have hstep : overlayStep a b (.ok m) p
          = .ok (setPix m p.1 p.2
              (if a.data p.1 p.2 = 0 ∨ b.data p.1 p.2 = 0 then 0 else 1)) := by
        simp [overlayStep, overlayBody_ok a b p.1 p.2 m h1 h2 h3 h4]
      rw [hstep, hfold]
    · intro r c
      rw [hchar r c]
      by_cases hm : (r, c) ∈ t
      · simp [hm]
      · by_cases hp : (r, c) = p
        · subst hp
          simp [hm, setPix_same]
        · have hne : ¬ (r = p.1 ∧ c = p.2) := by
            intro hcon
            exact hp (by cases p; simp_all)
          simp [hm, hp, setPix_other _ _ _ _ _ _ hne]

/-- Master characterisation of a successful overlay run: whenever the second
array covers the first array's index range, the loop never raises, the
result has `firstData`'s shape, and every in-range pixel holds the
blackness-OR of the two inputs. -/
lemma overlay_char (i : Mat) (a b : Grid)
    (hh : a.height ≤ b.height) (hw : a.width ≤ b.width) :
    ∃ g, overlay i a b = .ok g ∧ g.height = a.height ∧ g.width = a.width ∧
      ∀ r c, r < a.height → c < a.width →
        g.data r c = (if a.data r c = 0 ∨ b.data r c = 0 then 0 else 1) := by
  obtain ⟨m2, hfold, hchar⟩ := overlay_foldl_ok a b (cellIndices a.height a.width) i
    (fun p hp => by
      obtain ⟨hp1, hp2⟩ := (mem_cellIndices a.height a.width p.1 p.2).1 (by simpa using hp)
      exact ⟨hp1, hp2, lt_of_lt_of_le hp1 hh, lt_of_lt_of_le hp2 hw⟩)
  refine ⟨⟨a.height, a.width, m2⟩, ?_, rfl, rfl, ?_⟩
  · unfold overlay
    rw [hfold]
  · intro r c hr hc
    show m2 r c = _
    rw [hchar r c, if_pos ((mem_cellIndices a.height a.width r c).2 ⟨hr, hc⟩)]

/-! ### Shapes of the encoder's outputs -/

lemma encode_fst_height (dir : Nat → Nat → Bool) (i1 i2 : Mat) (g : Grid) :
    (encode dir i1 i2 g).1.height = g.height * 2 := rfl

lemma encode_fst_width (dir : Nat → Nat → Bool) (i1 i2 : Mat) (g : Grid) :
    (encode dir i1 i2 g).1.width = g.width * 2 := rfl

lemma encode_snd_height (dir : Nat → Nat → Bool) (i1 i2 : Mat) (g : Grid) :
    (encode dir i1 i2 g).2.height = g.height * 2 := rfl

lemma encode_snd_width (dir : Nat → Nat → Bool) (i1 i2 : Mat) (g : Grid) :
    (encode dir i1 i2 g).2.width = g.width * 2 := rfl

/-- The cell-level contract of the encoder: inside the original's bounds the
first share's 2x2 cell is the randomly drawn glyph and the second share's
cell is the glyph `shareBDir` dictates. -/
lemma encode_cellAt (dir : Nat → Nat → Bool) (i1 i2 : Mat) (g : Grid)
    (r c : Nat) (hr : r < g.height) (hc : c < g.width) :
    cellAt (encode dir i1 i2 g).1.data r c = glyphPat (dir r c) ∧
    cellAt (encode dir i1 i2 g).2.data r c
      = glyphPat (shareBDir (g.data r c) (dir r c)) := by
  obtain ⟨h1, h2⟩ := encode_foldl_cellAt g.data dir
    (cellIndices g.height g.width) (i1, i2) r c
  have hmem : (r, c) ∈ cellIndices g.height g.width :=
    (mem_cellIndices g.height g.width r c).2 ⟨hr, hc⟩
  constructor
  · show cellAt ((cellIndices g.height g.width).foldl
      (encodeStep g.data dir) (i1, i2)).1 r c = glyphPat (dir r c)
    rw [h1, if_pos hmem]
  · show cellAt ((cellIndices g.height g.width).foldl
      (encodeStep g.data dir) (i1, i2)).2 r c
        = glyphPat (shareBDir (g.data r c) (dir r c))
    rw [h2, if_pos hmem]

lemma glyphPat_true : glyphPat true = (1, 0, 0, 1) := rfl

lemma glyphPat_false : glyphPat false = (0, 1, 1, 0) := rfl

/-- Overlaying the two shares produced by `encode`: a black original pixel
yields an all-black 2x2 cell, a white one reproduces the first share's
glyph. -/
lemma overlay_encode_cellAt (dir : Nat → Nat → Bool) (i1 i2 i3 : Mat)
    (g : Grid) (r c : Nat) (hr : r < g.height) (hc : c < g.width) :
    ∃ ov, overlay i3 (encode dir i1 i2 g).1 (encode dir i1 i2 g).2 = .ok ov ∧
      cellAt ov.data r c
        = (if g.data r c = 0 then (0, 0, 0, 0) else glyphPat (dir r c)) := by
  obtain ⟨hA, hB⟩ := encode_cellAt dir i1 i2 g r c hr hc
  obtain ⟨ov, hov, hoh, how, hdata⟩ := overlay_char i3 (encode dir i1 i2 g).1
    (encode dir i1 i2 g).2 (le_refl _) (le_refl _)
  refine ⟨ov, hov, ?_⟩
  have e1 := hdata (r * 2) (c * 2)
    (by rw [encode_fst_height]; omega) (by rw [encode_fst_width]; omega)
  have e2 := hdata (r * 2) (c * 2 + 1)
    (by rw [encode_fst_height]; omega) (by rw [encode_fst_width]; omega)
  have e3 := hdata (r * 2 + 1) (c * 2)
    (by rw [encode_fst_height]; omega) (by rw [encode_fst_width]; omega)
  have e4 := hdata (r * 2 + 1) (c * 2 + 1)
    (by rw [encode_fst_height]; omega) (by rw [encode_fst_width]; omega)
  simp only [cellAt] at hA hB ⊢
  rw [e1, e2, e3, e4]
  by_cases hb : g.data r c = 0
  · rw [if_pos hb]
    rw [shareBDir, if_pos hb] at hB
    cases hd : dir r c
    · rw [hd] at hA hB
      rw [glyphPat_false] at hA
      rw [Bool.not_false, glyphPat_true] at hB
      simp only [Prod.mk.injEq] at hA hB
      obtain ⟨a1, a2, a3, a4⟩ := hA
      obtain ⟨b1, b2, b3, b4⟩ := hB
      rw [a1, a2, a3, a4, b1, b2, b3, b4]
      norm_num
    · rw [hd] at hA hB
      rw [glyphPat_true] at hA
      rw [Bool.not_true, glyphPat_false] at hB
      simp only [Prod.mk.injEq] at hA hB
      obtain ⟨a1, a2, a3, a4⟩ := hA
      obtain ⟨b1, b2, b3, b4⟩ := hB
      rw [a1, a2, a3, a4, b1, b2, b3, b4]
      norm_num
  · rw [if_neg hb]
    rw [shareBDir, if_neg hb] at hB
    cases hd : dir r c
    · rw [hd] at hA hB
      rw [glyphPat_false] at hA hB ⊢
      simp only [Prod.mk.injEq] at hA hB
      obtain ⟨a1, a2, a3, a4⟩ := hA
      obtain ⟨b1, b2, b3, b4⟩ := hB
      rw [a1, a2, a3, a4, b1, b2, b3, b4]
      norm_num
    · rw [hd] at hA hB
      rw [glyphPat_true] at hA hB ⊢
      simp only [Prod.mk.injEq] at hA hB
      obtain ⟨a1, a2, a3, a4⟩ := hA
      obtain ⟨b1, b2, b3, b4⟩ := hB
      rw [a1, a2, a3, a4, b1, b2, b3, b4]
      norm_num

lemma glyphPat_cases (b : Bool) :
    glyphPat b = glyphPat SLASH ∨ glyphPat b = glyphPat BACKSLASH := by
  cases b
  · right; rfl
  · left; rfl

/-! ### Concrete inputs used by the witnesses and the counterexample -/

/-- A 1x1 all-black original. -/
def gridBlack1 : Grid := ⟨1, 1, fun _ _ => 0⟩

/-- A 1x1 all-white grid. -/
def gridOnes1 : Grid := ⟨1, 1, fun _ _ => 1⟩

/-- A 2x2 all-white grid. -/
def gridOnes2 : Grid := ⟨2, 2, fun _ _ => 1⟩

/-- A 1x1 grid holding the non-binary sample 0.5. -/
def gridHalf1 : Grid := ⟨1, 1, fun _ _ => 1 / 2⟩

/-- A random oracle that always answers `SLASH`. -/
def dirAllSlash : Nat → Nat → Bool := fun _ _ => SLASH

/-- Arbitrary junk contents for an `np.empty` array. -/
def junkMatA : Mat := fun _ _ => 5

/-- Different arbitrary junk contents for an `np.empty` array. -/
def junkMatB : Mat := fun _ _ => 7

/-- An all-zero array contents. -/
def zeroMat : Mat := fun _ _ => 0

/-! ### The claims -/

/-- C1: for every input grid and every in-range coordinate (r, c), `encode`
draws the randomly chosen direction glyph at cell (r, c) of share A; at
cell (r, c) of share B it draws the opposite glyph (Slash↔Backslash) when
original[r,c] is black (0.0), and the same glyph as the direction when
original[r,c] is white (nonzero). -/
theorem encode_cell_rule (dir : Nat → Nat → Bool) (i1 i2 : Mat) (g : Grid)
    (r c : Nat) (hr : r < g.height) (hc : c < g.width) :
    cellAt (encode dir i1 i2 g).1.data r c = glyphPat (dir r c) ∧
    cellAt (encode dir i1 i2 g).2.data r c
      = (if g.data r c = 0 then glyphPat (!(dir r c)) else glyphPat (dir r c)) := by
  obtain ⟨h1, h2⟩ := encode_cellAt dir i1 i2 g r c hr hc
  refine ⟨h1, ?_⟩
  rw [h2, shareBDir]
  by_cases h : g.data r c = 0 <;> simp [h]

/-- Witness for C1 at a concrete 1x1 black original with a slash oracle. -/
theorem encode_cell_rule_witness :
    cellAt (encode dirAllSlash junkMatA junkMatB gridBlack1).1.data 0 0
      = glyphPat (dirAllSlash 0 0) ∧
    cellAt (encode dirAllSlash junkMatA junkMatB gridBlack1).2.data 0 0
      = (if gridBlack1.data 0 0 = 0 then glyphPat (!(dirAllSlash 0 0))
         else glyphPat (dirAllSlash 0 0)) :=
  encode_cell_rule dirAllSlash junkMatA junkMatB gridBlack1 0 0
    (by decide) (by decide)

/-- C2: for two grids of identical dimensions and every in-range position,
overlay succeeds and its output pixel is black (0.0) exactly when either
input pixel is black, and white (1.0) otherwise — the OR of blackness. -/
theorem overlay_or_rule (i : Mat) (a b : Grid)
    (hh : a.height = b.height) (hw : a.width = b.width)
    (r c : Nat) (hr : r < a.height) (hc : c < a.width) :
    ∃ g, overlay i a b = .ok g ∧
      g.data r c = (if a.data r c = 0 ∨ b.data r c = 0 then 0 else 1) := by
  obtain ⟨g, h1, _, _, h4⟩ := overlay_char i a b hh.le hw.le
  exact ⟨g, h1, h4 r c hr hc⟩

/-- Witness for C2: a white 1x1 grid over a black one gives a black pixel. -/
theorem overlay_or_rule_witness :
    ∃ g, overlay zeroMat gridOnes1 gridBlack1 = .ok g ∧
      g.data 0 0
        = (if gridOnes1.data 0 0 = 0 ∨ gridBlack1.data 0 0 = 0 then 0 else 1) :=
  overlay_or_rule zeroMat gridOnes1 gridBlack1 rfl rfl 0 0 (by decide) (by decide)

/-- C3: whenever an original pixel is black (0.0), for every outcome of the
per-cell random choices the corresponding 2x2 cell of
overlay(shareA, shareB) is all-black. -/
theorem black_preservation (dir : Nat → Nat → Bool) (i1 i2 i3 : Mat)
    (g : Grid) (r c : Nat) (hr : r < g.height) (hc : c < g.width)
    (hb : g.data r c = 0) :
    ∃ ov, overlay i3 (encode dir i1 i2 g).1 (encode dir i1 i2 g).2 = .ok ov ∧
      cellAt ov.data r c = (0, 0, 0, 0) := by
  obtain ⟨ov, hov, hcell⟩ := overlay_encode_cellAt dir i1 i2 i3 g r c hr hc
  exact ⟨ov, hov, by rw [hcell, if_pos hb]⟩

/-- Witness for C3 at a 1x1 black original. -/
theorem black_preservation_witness :
    ∃ ov, overlay zeroMat (encode dirAllSlash junkMatA junkMatB gridBlack1).1
        (encode dirAllSlash junkMatA junkMatB gridBlack1).2 = .ok ov ∧
      cellAt ov.data 0 0 = (0, 0, 0, 0) :=
  black_preservation dirAllSlash junkMatA junkMatB zeroMat gridBlack1 0 0
    (by decide) (by decide) (by decide)

/-- C4: whenever an original pixel is white (nonzero), for every outcome of
the random choices the corresponding 2x2 cell of overlay(shareA, shareB)
equals exactly share A's glyph at that cell: 2 of the 4 sub-pixels black,
matching the glyph pattern, and not all-white. -/
theorem white_texture (dir : Nat → Nat → Bool) (i1 i2 i3 : Mat)
    (g : Grid) (r c : Nat) (hr : r < g.height) (hc : c < g.width)
    (hb : g.data r c ≠ 0) :
    ∃ ov, overlay i3 (encode dir i1 i2 g).1 (encode dir i1 i2 g).2 = .ok ov ∧
      cellAt ov.data r c = cellAt (encode dir i1 i2 g).1.data r c ∧
      cellAt ov.data r c = glyphPat (dir r c) ∧
      countBlack (cellAt ov.data r c) = 2 ∧
      cellAt ov.data r c ≠ (1, 1, 1, 1) := by
  obtain ⟨ov, hov, hcell⟩ := overlay_encode_cellAt dir i1 i2 i3 g r c hr hc
  obtain ⟨hA, _⟩ := encode_cellAt dir i1 i2 g r c hr hc
  rw [if_neg hb] at hcell
  refine ⟨ov, hov, by rw [hcell, hA], hcell, ?_, ?_⟩
  · rw [hcell]
    cases dir r c
    · rw [glyphPat_false]; norm_num [countBlack]
    · rw [glyphPat_true]; norm_num [countBlack]
  · rw [hcell]
    cases dir r c
    · rw [glyphPat_false]; norm_num
    · rw [glyphPat_true]; norm_num

/-- Witness for C4 at a 1x1 white original. -/
theorem white_texture_witness :
    ∃ ov, overlay zeroMat (encode dirAllSlash junkMatA junkMatB gridOnes1).1
        (encode dirAllSlash junkMatA junkMatB gridOnes1).2 = .ok ov ∧
      cellAt ov.data 0 0
        = cellAt (encode dirAllSlash junkMatA junkMatB gridOnes1).1.data 0 0 ∧
      cellAt ov.data 0 0 = glyphPat (dirAllSlash 0 0) ∧
      countBlack (cellAt ov.data 0 0) = 2 ∧
      cellAt ov.data 0 0 ≠ (1, 1, 1, 1) :=
  white_texture dirAllSlash junkMatA junkMatB zeroMat gridOnes1 0 0
    (by decide) (by decide) (by decide)

/-- C5: the slash glyph has topLeft = 1.0 (white), topRight = 0.0 (black),
bottomLeft = 0.0, bottomRight = 1.0; the backslash glyph is its bitwise
complement, so the two glyphs differ at every one of the 4 sub-positions. -/
theorem glyph_complementarity (r c : Nat) (m m2 : Mat) :
    drawSlash r c m (r * 2) (c * 2) = 1 ∧
    drawSlash r c m (r * 2) (c * 2 + 1) = 0 ∧
    drawSlash r c m (r * 2 + 1) (c * 2) = 0 ∧
    drawSlash r c m (r * 2 + 1) (c * 2 + 1) = 1 ∧
    drawBackslash r c m2 (r * 2) (c * 2) = 0 ∧
    drawBackslash r c m2 (r * 2) (c * 2 + 1) = 1 ∧
    drawBackslash r c m2 (r * 2 + 1) (c * 2) = 1 ∧
    drawBackslash r c m2 (r * 2 + 1) (c * 2 + 1) = 0 ∧
    drawSlash r c m (r * 2) (c * 2) ≠ drawBackslash r c m2 (r * 2) (c * 2) ∧
    drawSlash r c m (r * 2) (c * 2 + 1) ≠ drawBackslash r c m2 (r * 2) (c * 2 + 1) ∧
    drawSlash r c m (r * 2 + 1) (c * 2) ≠ drawBackslash r c m2 (r * 2 + 1) (c * 2) ∧
    drawSlash r c m (r * 2 + 1) (c * 2 + 1) ≠ drawBackslash r c m2 (r * 2 + 1) (c * 2 + 1) := by
  simp [drawSlash_tl, drawSlash_tr, drawSlash_bl, drawSlash_br,
    drawBackslash_tl, drawBackslash_tr, drawBackslash_bl, drawBackslash_br]

/-- C6: `encode` on an HxW grid returns two grids of shape (2H)x(2W), with
original cell (r, c) mapped to the 2x2 block at pixel offsets
(2r .. 2r+1, 2c .. 2c+1) (that block holds the cell's glyph, read off by
`cellAt`); `overlay` returns a grid whose shape equals that of its inputs. -/
theorem dimension_doubling (dir : Nat → Nat → Bool) (i1 i2 i3 : Mat)
    (g a b : Grid) (r c : Nat) (hr : r < g.height) (hc : c < g.width)
    (hh : a.height = b.height) (hw : a.width = b.width) :
    (encode dir i1 i2 g).1.height = g.height * 2 ∧
    (encode dir i1 i2 g).1.width = g.width * 2 ∧
    (encode dir i1 i2 g).2.height = g.height * 2 ∧
    (encode dir i1 i2 g).2.width = g.width * 2 ∧
    cellAt (encode dir i1 i2 g).1.data r c = glyphPat (dir r c) ∧
    ∃ ov, overlay i3 a b = .ok ov ∧ ov.height = a.height ∧ ov.width = a.width := by
  obtain ⟨hA, _⟩ := encode_cellAt dir i1 i2 g r c hr hc
  obtain ⟨ov, hov, hoh, how, _⟩ := overlay_char i3 a b hh.le hw.le
  exact ⟨rfl, rfl, rfl, rfl, hA, ov, hov, hoh, how⟩

/-- Witness for C6 at a 1x1 original and a pair of 1x1 shares. -/
theorem dimension_doubling_witness :
    (encode dirAllSlash junkMatA junkMatB gridBlack1).1.height
      = gridBlack1.height * 2 ∧
    (encode dirAllSlash junkMatA junkMatB gridBlack1).1.width
      = gridBlack1.width * 2 ∧
    (encode dirAllSlash junkMatA junkMatB gridBlack1).2.height
      = gridBlack1.height * 2 ∧
    (encode dirAllSlash junkMatA junkMatB gridBlack1).2.width
      = gridBlack1.width * 2 ∧
    cellAt (encode dirAllSlash junkMatA junkMatB gridBlack1).1.data 0 0
      = glyphPat (dirAllSlash 0 0) ∧
    ∃ ov, overlay zeroMat gridOnes1 gridBlack1 = .ok ov ∧
      ov.height = gridOnes1.height ∧ ov.width = gridOnes1.width :=
  dimension_doubling dirAllSlash junkMatA junkMatB zeroMat gridBlack1
    gridOnes1 gridBlack1 0 0 (by decide) (by decide) rfl rfl

/-- C7: for every input grid, every outcome of the random choices and both
grids returned by `encode`, every 2x2 cell of the output is exactly the
slash pattern or exactly the backslash pattern. -/
theorem encoder_cells_glyphs (dir : Nat → Nat → Bool) (i1 i2 : Mat)
    (g : Grid) (r c : Nat) (hr : r < g.height) (hc : c < g.width) :
    (cellAt (encode dir i1 i2 g).1.data r c = glyphPat SLASH ∨
     cellAt (encode dir i1 i2 g).1.data r c = glyphPat BACKSLASH) ∧
    (cellAt (encode dir i1 i2 g).2.data r c = glyphPat SLASH ∨
     cellAt (encode dir i1 i2 g).2.data r c = glyphPat BACKSLASH) := by
  obtain ⟨hA, hB⟩ := encode_cellAt dir i1 i2 g r c hr hc
  constructor
  · rw [hA]; exact glyphPat_cases (dir r c)
  · rw [hB]; exact glyphPat_cases (shareBDir (g.data r c) (dir r c))

/-- Witness for C7 at a 1x1 black original. -/
theorem encoder_cells_glyphs_witness :
    (cellAt (encode dirAllSlash junkMatA junkMatB gridBlack1).1.data 0 0
        = glyphPat SLASH ∨
     cellAt (encode dirAllSlash junkMatA junkMatB gridBlack1).1.data 0 0
        = glyphPat BACKSLASH) ∧
    (cellAt (encode dirAllSlash junkMatA junkMatB gridBlack1).2.data 0 0
        = glyphPat SLASH ∨
     cellAt (encode dirAllSlash junkMatA junkMatB gridBlack1).2.data 0 0
        = glyphPat BACKSLASH) :=
  encoder_cells_glyphs dirAllSlash junkMatA junkMatB gridBlack1 0 0
    (by decide) (by decide)

/-- C8 counterexample: `overlay` performs no dimension check.  Called on a
1x1 grid and a 2x2 grid — unequal heights and widths — it completes without
raising any error, so it does not fail with a DimensionMismatch error
whenever the dimensions differ. -/
theorem overlay_accepts_mismatched_dims :
    gridOnes1.height ≠ gridOnes2.height ∧ gridOnes1.width ≠ gridOnes2.width ∧
    exceptIsOk (overlay zeroMat gridOnes1 gridOnes2) = true := by
  refine ⟨by decide, by decide, by decide⟩

/-- C8 amended: `overlay` iterates over `firstData`'s shape with no
dimension guard; whenever `secondData`'s dimensions are at least
`firstData`'s — equal or not — it silently succeeds and returns a grid of
`firstData`'s shape (a too-small `secondData` can only surface as numpy's
IndexError on an out-of-bounds read, never as a DimensionMismatch). -/
theorem overlay_silent_on_covering_second (i : Mat) (a b : Grid)
    (hh : a.height ≤ b.height) (hw : a.width ≤ b.width) :
    ∃ ov, overlay i a b = .ok ov ∧ ov.height = a.height ∧ ov.width = a.width := by
  obtain ⟨ov, hov, hoh, how, _⟩ := overlay_char i a b hh hw
  exact ⟨ov, hov, hoh, how⟩

/-- Witness for the amended C8, on the mismatched 1x1 / 2x2 pair itself. -/
theorem overlay_silent_on_covering_second_witness :
    ∃ ov, overlay zeroMat gridOnes1 gridOnes2 = .ok ov ∧
      ov.height = gridOnes1.height ∧ ov.width = gridOnes1.width :=
  overlay_silent_on_covering_second zeroMat gridOnes1 gridOnes2
    (by decide) (by decide)

/-- C9: `overlay` is deterministic — two runs on the same pair of
equal-dimension grids return outputs of the same shape agreeing at every
in-range pixel, whatever the contents of the scratch `np.empty` buffers;
no randomness enters the computation. -/
theorem overlay_deterministic (i1 i2 : Mat) (a b : Grid)
    (hh : a.height = b.height) (hw : a.width = b.width) :
    ∃ g1 g2, overlay i1 a b = .ok g1 ∧ overlay i2 a b = .ok g2 ∧
      g1.height = g2.height ∧ g1.width = g2.width ∧
      ∀ r c, r < g1.height → c < g1.width → g1.data r c = g2.data r c := by
  obtain ⟨g1, h1, h1h, h1w, h1d⟩ := overlay_char i1 a b hh.le hw.le
  obtain ⟨g2, h2, h2h, h2w, h2d⟩ := overlay_char i2 a b hh.le hw.le
  refine ⟨g1, g2, h1, h2, by rw [h1h, h2h], by rw [h1w, h2w], ?_⟩
  intro r c hr hc
  rw [h1d r c (h1h ▸ hr) (h1w ▸ hc), h2d r c (h1h ▸ hr) (h1w ▸ hc)]

/-- Witness for C9: two runs with different scratch-buffer contents on a
concrete pair of 1x1 grids. -/
theorem overlay_deterministic_witness :
    ∃ g1 g2, overlay junkMatA gridOnes1 gridBlack1 = .ok g1 ∧
      overlay junkMatB gridOnes1 gridBlack1 = .ok g2 ∧
      g1.height = g2.height ∧ g1.width = g2.width ∧
      ∀ r c, r < g1.height → c < g1.width → g1.data r c = g2.data r c :=
  overlay_deterministic junkMatA junkMatB gridOnes1 gridBlack1 rfl rfl

/-- C10: on any pair of equal-dimension grids, including ones holding
values other than 0.0 and 1.0, every in-range entry of overlay's output is
exactly 0.0 or exactly 1.0, and a position where both inputs are nonzero
(each treated as white) yields 1.0. -/
theorem overlay_binary_output (i : Mat) (a b : Grid)
    (hh : a.height = b.height) (hw : a.width = b.width)
    (r c : Nat) (hr : r < a.height) (hc : c < a.width) :
    ∃ ov, overlay i a b = .ok ov ∧
      (ov.data r c = 0 ∨ ov.data r c = 1) ∧
      (a.data r c ≠ 0 → b.data r c ≠ 0 → ov.data r c = 1) := by
  obtain ⟨ov, hov, _, _, hdata⟩ := overlay_char i a b hh.le hw.le
  have e := hdata r c hr hc
  refine ⟨ov, hov, ?_, ?_⟩
  · rw [e]
    by_cases h : a.data r c = 0 ∨ b.data r c = 0 <;> simp [h]
  · intro ha hb
    rw [e, if_neg (by tauto)]

/-- Witness for C10 on two 1x1 grids both holding 0.5: the output is 1.0. -/
theorem overlay_binary_output_witness :
    ∃ ov, overlay zeroMat gridHalf1 gridHalf1 = .ok ov ∧
      (ov.data 0 0 = 0 ∨ ov.data 0 0 = 1) ∧
      (gridHalf1.data 0 0 ≠ 0 → gridHalf1.data 0 0 ≠ 0 → ov.data 0 0 = 1) :=
  overlay_binary_output zeroMat gridHalf1 gridHalf1 rfl rfl 0 0
    (by decide) (by decide)

end VisualCrypto
